import Mathlib

/-!
Verification of the data-normalization and drill-down aggregation pipeline of
the court-cases dashboard (src/app.py).  Python strings are modelled as lists
of Unicode code points (`PyStr`); pandas missing values (NaN/NaT) are modelled
with `Option`; timestamps are modelled as naturals on a mixed-radix
year/month/day/minute code whose numeric order is chronological order.
-/

namespace CourtDashboard

/-- Python strings, as lists of code points. -/
abbrev PyStr := List Nat

/-- The characters Python str.strip() removes (ASCII whitespace). -/
def isSpaceChar (c : Nat) : Bool :=
  decide (c = 32) || decide (c = 9) || decide (c = 10) ||
  decide (c = 13) || decide (c = 11) || decide (c = 12)

/-- ASCII letter, the word-forming class of Python str.title(). -/
def isAlphaChar (c : Nat) : Bool :=
  (decide (65 ≤ c) && decide (c ≤ 90)) || (decide (97 ≤ c) && decide (c ≤ 122))

/-- ASCII upper-casing of one code point. -/
def toUpperChar (c : Nat) : Nat := if 97 ≤ c ∧ c ≤ 122 then c - 32 else c

/-- ASCII lower-casing of one code point. -/
def toLowerChar (c : Nat) : Nat := if 65 ≤ c ∧ c ≤ 90 then c + 32 else c

/-- One step of Python str.title(): a letter is upper-cased at a word start
and lower-cased inside a word; `b` says whether the previous character was a
letter.  Non-letters pass through. -/
def titleChar (b : Bool) (c : Nat) : Nat :=
  if isAlphaChar c then (if b then toLowerChar c else toUpperChar c) else c

/-- Python str.title(), with the previous-character-was-a-letter flag. -/
def titleAux (b : Bool) : PyStr → PyStr
  | [] => []
  | c :: cs => titleChar b c :: titleAux (isAlphaChar c) cs

/-- Python str.title(). -/
def titleStr (s : PyStr) : PyStr := titleAux false s

/-- Python str.strip(): drop leading and trailing whitespace. -/
def stripStr (s : PyStr) : PyStr :=
  ((s.dropWhile isSpaceChar).reverse.dropWhile isSpaceChar).reverse

/-- "Pending" -/
def strPending : PyStr := [80, 101, 110, 100, 105, 110, 103]

/-- "Decided" -/
def strDecided : PyStr := [68, 101, 99, 105, 100, 101, 100]

/-- "Dismissed" -/
def strDismissed : PyStr := [68, 105, 115, 109, 105, 115, 115, 101, 100]

/-- "Disposed" -/
def strDisposed : PyStr := [68, 105, 115, 112, 111, 115, 101, 100]

/-- "Not Specified" -/
def strNotSpecified : PyStr :=
  [78, 111, 116, 32, 83, 112, 101, 99, 105, 102, 105, 101, 100]

/-- "Not Assigned" -/
def strNotAssigned : PyStr :=
  [78, 111, 116, 32, 65, 115, 115, 105, 103, 110, 101, 100]

/-- "High Court" -/
def strHighCourt : PyStr := [72, 105, 103, 104, 32, 67, 111, 117, 114, 116]

/-- "District Court" -/
def strDistrictCourt : PyStr :=
  [68, 105, 115, 116, 114, 105, 99, 116, 32, 67, 111, 117, 114, 116]

/-- "Supreme Court" -/
def strSupremeCourt : PyStr :=
  [83, 117, 112, 114, 101, 109, 101, 32, 67, 111, 117, 114, 116]

/-- "Punjab And Haryana High Court" -/
def strPunjabHC : PyStr :=
  [80, 117, 110, 106, 97, 98, 32, 65, 110, 100, 32, 72, 97, 114, 121, 97,
   110, 97, 32, 72, 105, 103, 104, 32, 67, 111, 117, 114, 116]

/-- "District Court Ludhiana" -/
def strDistrictLudhiana : PyStr :=
  [68, 105, 115, 116, 114, 105, 99, 116, 32, 67, 111, 117, 114, 116, 32,
   76, 117, 100, 104, 105, 97, 110, 97]

/-- "Supreme Court Of India" -/
def strSupremeIndia : PyStr :=
  [83, 117, 112, 114, 101, 109, 101, 32, 67, 111, 117, 114, 116, 32,
   79, 102, 32, 73, 110, 100, 105, 97]

/-- "NaT", how pandas prints a missing timestamp once cast to str. -/
def strNaT : PyStr := [78, 97, 84]

/-- src/app.py lines 32-34.  `.str.strip().str.title()` then
`.fillna('Not Specified')`, then `Series.replace` with the mapping
Pending→Pending, Decided→Decided, Dismissed→Decided, Disposed→Decided,
then a second `.fillna('Not Specified')`.  `Series.replace` leaves values
outside the mapping unchanged (it is not `Series.map`), so after the first
fillna no NaN remains and the second fillna never fires. -/
def canonStatus : Option PyStr → PyStr
  | none => strNotSpecified
  | some s =>
    if titleStr (stripStr s) = strPending then strPending
    else if titleStr (stripStr s) = strDecided then strDecided
    else if titleStr (stripStr s) = strDismissed then strDecided
    else if titleStr (stripStr s) = strDisposed then strDecided
    else titleStr (stripStr s)

/-- src/app.py lines 35-37, the present-value path: strip, title-case, then
`Series.replace` over the court alias table.  Unmatched values stay as their
title-cased selves. -/
def canonCourtStr (s : PyStr) : PyStr :=
  if titleStr (stripStr s) = strPunjabHC then strHighCourt
  else if titleStr (stripStr s) = strDistrictLudhiana then strDistrictCourt
  else if titleStr (stripStr s) = strSupremeIndia then strSupremeCourt
  else titleStr (stripStr s)

/-- src/app.py lines 35-37 with the missing-value path:
`.fillna('Not Specified')` runs before the alias replace, and
"Not Specified" matches no alias key. -/
def canonCourt : Option PyStr → PyStr
  | none => strNotSpecified
  | some s => canonCourtStr s

/-- Timestamp code: minutes on a mixed-radix year/month/day/minuteOfDay
layout.  For month < 16, day < 32, minute < 1440 the numeric order is
chronological order; dates parsed from the sheet land at minute 0. -/
def mkTs (y m d minute : Nat) : Nat := ((y * 16 + m) * 32 + d) * 1440 + minute

/-- Timestamp.normalize(): midnight of the same day. -/
def normalizeTs (t : Nat) : Nat := t - t % 1440

/-- The year*16+month code of a timestamp, the key of Period('M'). -/
def tsYM (t : Nat) : Nat := t / 46080

/-- ASCII decimal digit. -/
def isDigitChar (c : Nat) : Bool := decide (48 ≤ c) && decide (c ≤ 57)

/-- Modelled library call: pandas.to_datetime(errors='coerce') on one cell,
for ISO `YYYY-MM-DD` cells; any cell that does not parse coerces to NaT
(`none`), never to an error and never to the raw string. -/
def parseDateStr : PyStr → Option Nat
  | [y1, y2, y3, y4, h1, m1, m2, h2, d1, d2] =>
    if isDigitChar y1 && isDigitChar y2 && isDigitChar y3 && isDigitChar y4 &&
        decide (h1 = 45) && decide (h2 = 45) &&
        isDigitChar m1 && isDigitChar m2 && isDigitChar d1 && isDigitChar d2 then
      let y := (y1 - 48) * 1000 + (y2 - 48) * 100 + (y3 - 48) * 10 + (y4 - 48)
      let m := (m1 - 48) * 10 + (m2 - 48)
      let d := (d1 - 48) * 10 + (d2 - 48)
      if 1 ≤ m ∧ m ≤ 12 ∧ 1 ≤ d ∧ d ≤ 31 then some (mkTs y m d 0) else none
    else none
  | _ => none

/-- src/app.py line 38: a missing cell stays NaT, a present cell is parsed
with coercion of failures to NaT. -/
def parseDate : Option PyStr → Option Nat
  | none => none
  | some s => parseDateStr s

/-- One physical row of the source sheet, restricted to the columns the
claims touch; a field is `none` where the CSV cell is empty (pandas NaN).
The named fields stand for the positional columns 0 (s_no), 1
(supervisor_office), 6 (case_status), 9 (court_name), 14 (next_hearing_date)
of the 24-column layout. -/
structure RawRow where
  s_no : Option PyStr
  supervisor_office : Option PyStr
  case_status : Option PyStr
  court_name : Option PyStr
  next_hearing_date : Option PyStr
deriving DecidableEq

/-- One record of the normalized table. -/
structure CaseRecord where
  s_no : Option PyStr
  supervisor_office : PyStr
  case_status : PyStr
  court_name : PyStr
  next_hearing_date : Option Nat
deriving DecidableEq

/-- src/app.py lines 32-39 applied to one surviving row: canonicalize
case_status and court_name, coerce the date, fill supervisor_office. -/
def normalizeRow (r : RawRow) : CaseRecord :=
  { s_no := r.s_no
    supervisor_office := r.supervisor_office.getD strNotAssigned
    case_status := canonStatus r.case_status
    court_name := canonCourt r.court_name
    next_hearing_date := parseDate r.next_hearing_date }

/-- The 24-name canonical column list of src/app.py lines 21-29, bound
positionally in place of the source header. -/
def canonicalColumns : List String :=
  ["s_no", "supervisor_office", "branch_name", "clerk", "case_no",
   "case_title", "case_status", "status_comment", "pending_stage",
   "court_name", "dc_action_needed", "dc_action_to_be_taken",
   "reply_by", "reply_filed", "next_hearing_date", "case_detail",
   "court_directions", "direction_details", "compliance_of_direction",
   "status_reply_required", "status_reply_filed", "case_documents",
   "remarks", "days_left"]

/-- src/app.py lines 20-39 on the list of physical rows of the sheet:
`read_csv(skiprows=1)` discards the first physical row and consumes the
second as the header, `df.iloc[1:]` then discards the first data row (the
third physical row), `dropna(subset=['s_no'])` keeps only rows whose s_no
cell is present, and each kept row is normalized. -/
def loadRows (phys : List RawRow) : List CaseRecord :=
  match phys with
  | _ :: _ :: dataRows =>
    ((dataRows.drop 1).filter fun r => r.s_no.isSome).map normalizeRow
  | _ => []

/-- The outcome of the fetch+parse of the sheet: either a failure (any
exception inside the try of load_data) or the physical rows together with
the column count read_csv saw. -/
inductive FetchResult where
  | failure (msg : PyStr)
  | success (ncols : Nat) (phys : List RawRow)

/-- src/app.py lines 16-44, load_data: on any fetch or parse failure the
except branch shows an error notice and returns an empty table; assigning the
24 canonical names raises (and is caught) when the sheet does not have 24
columns.  The Bool is true exactly when the error notice was shown. -/
def load_data_result : FetchResult → List CaseRecord × Bool
  | .failure _ => ([], true)
  | .success ncols phys =>
    if ncols = 24 then (loadRows phys, false) else ([], true)

/-- The table load_data returns. -/
def load_data (res : FetchResult) : List CaseRecord := (load_data_result res).1

/-- Python string ≤ (lexicographic by code point, a proper preamble is
smaller), the order pandas sort_index uses on string labels. -/
def lexLe : PyStr → PyStr → Bool
  | [], _ => true
  | _ :: _, [] => false
  | a :: as, b :: bs =>
    if a < b then true else if a = b then lexLe as bs else false

/-- The label order on (label, count) pairs used by sort_index. -/
def labelLe (p q : PyStr × Nat) : Prop := lexLe p.1 q.1 = true

instance : DecidableRel labelLe :=
  fun p q => inferInstanceAs (Decidable (lexLe p.1 q.1 = true))

theorem lexLe_total : ∀ a b : PyStr, lexLe a b = true ∨ lexLe b a = true
  | [], _ => Or.inl rfl
  | _ :: _, [] => Or.inr rfl
  | a :: as, b :: bs => by
    rcases Nat.lt_trichotomy a b with h | h | h
    · left; simp [lexLe, h]
    · subst h
      rcases lexLe_total as bs with h2 | h2 <;> [left; right] <;>
        simpa [lexLe] using h2
    · right; simp [lexLe, h, Nat.lt_asymm h, (Nat.ne_of_lt h).symm]

theorem lexLe_trans :
    ∀ a b c : PyStr, lexLe a b = true → lexLe b c = true → lexLe a c = true
  | [], _, _, _, _ => rfl
  | _ :: _, [], _, hab, _ => by simp [lexLe] at hab
  | _ :: _, _ :: _, [], _, hbc => by simp [lexLe] at hbc
  | a :: as, b :: bs, c :: cs, hab, hbc => by
    simp only [lexLe] at hab hbc ⊢
    by_cases h1 : a < b
    · by_cases h2 : b < c
      · simp [Nat.lt_trans h1 h2]
      · simp only [if_neg h2] at hbc
        by_cases h3 : b = c
        · subst h3; simp [h1]
        · simp [h3] at hbc
    · simp only [if_neg h1] at hab
      by_cases h4 : a = b
      · subst h4
        simp only [if_pos rfl] at hab
        by_cases h2 : a < c
        · simp [h2]
        · simp only [if_neg h2] at hbc ⊢
          by_cases h3 : a = c
          · subst h3
            simp only [if_pos rfl] at hbc ⊢
            exact lexLe_trans as bs cs hab hbc
          · simp [h3] at hbc
      · simp [h4] at hab

instance : IsTotal (PyStr × Nat) labelLe where
  total p q := lexLe_total p.1 q.1

instance : IsTrans (PyStr × Nat) labelLe where
  trans p q r := lexLe_trans p.1 q.1 r.1

/-- Occurrences of the label a in a list of labels. -/
def countLabel (a : PyStr) : List PyStr → Nat
  | [] => 0
  | b :: l => (if b = a then 1 else 0) + countLabel a l

/-- pandas Series.value_counts on a list of labels: the distinct labels,
each with its number of occurrences (the order value_counts itself emits is
resorted wherever the code applies sort_index). -/
def valueCounts (l : List PyStr) : List (PyStr × Nat) :=
  l.dedup.map fun k => (k, countLabel k l)

/-- pandas sort_index on a (label, count) list: sort ascending by label. -/
def sortIndex (l : List (PyStr × Nat)) : List (PyStr × Nat) :=
  List.insertionSort labelLe l

/-- src/app.py lines 132-134: the sidebar query.  In pandas query syntax,
`==` against a list is membership, and the three clauses are conjoined. -/
def dfFiltered (t : List CaseRecord) (offices statuses courts : List PyStr) :
    List CaseRecord :=
  t.filter fun r =>
    decide (r.supervisor_office ∈ offices) &&
    decide (r.case_status ∈ statuses) &&
    decide (r.court_name ∈ courts)

/-- src/app.py line 162: the slice of the table at one chosen court. -/
def sliceCourt (t : List CaseRecord) (c : PyStr) : List CaseRecord :=
  t.filter fun r => decide (r.court_name = c)

/-- The drill-down slice at the current selection: the whole table when no
court is chosen, the court slice once one is. -/
def sliceAt (t : List CaseRecord) : Option PyStr → List CaseRecord
  | none => t
  | some c => sliceCourt t c

/-- src/app.py lines 143-144: value_counts of court_name over the filtered
table (the level-1 breakdown). -/
def casesByCourt (t : List CaseRecord) : List (PyStr × Nat) :=
  valueCounts (t.map fun r => r.court_name)

/-- src/app.py lines 162-166: str(Period('M')) of one record's date; NaT
prints as "NaT", a date as zero-padded "YYYY-MM". -/
def monthLabel : Option Nat → PyStr
  | none => strNaT
  | some t =>
    [48 + tsYM t / 16 / 1000 % 10, 48 + tsYM t / 16 / 100 % 10,
     48 + tsYM t / 16 / 10 % 10, 48 + tsYM t / 16 % 10, 45,
     48 + tsYM t % 16 / 10 % 10, 48 + tsYM t % 16 % 10]

/-- src/app.py lines 162-166: the level-2 breakdown of one court, grouped by
the month label string, counted, sorted ascending by label. -/
def monthlyCounts (t : List CaseRecord) (c : PyStr) : List (PyStr × Nat) :=
  sortIndex (valueCounts ((sliceCourt t c).map fun r =>
    monthLabel r.next_hearing_date))

/-- src/app.py line 58: the KPI membership test,
`next_hearing_date > datetime.now()`; a NaT comparison is False. -/
def isUpcoming (now : Nat) (r : CaseRecord) : Bool :=
  match r.next_hearing_date with
  | some ts => decide (now < ts)
  | none => false

/-- src/app.py line 58: the Total Upcoming Hearings KPI. -/
def upcomingHearingsTotal (t : List CaseRecord) (now : Nat) : Nat :=
  (t.filter (isUpcoming now)).length

/-- src/app.py line 190: membership in the complete upcoming listing,
`next_hearing_date >= today` with today the midnight of now. -/
def inAllUpcoming (now : Nat) (r : CaseRecord) : Bool :=
  match r.next_hearing_date with
  | some ts => decide (normalizeTs now ≤ ts)
  | none => false

/-- src/app.py lines 190-191: the complete upcoming-hearings listing. -/
def allUpcoming (t : List CaseRecord) (now : Nat) : List CaseRecord :=
  t.filter (inAllUpcoming now)

/-- src/app.py line 180: membership in the next-14-days listing. -/
def inUpcoming14 (now : Nat) (r : CaseRecord) : Bool :=
  match r.next_hearing_date with
  | some ts =>
    decide (normalizeTs now ≤ ts) && decide (ts ≤ normalizeTs now + 14 * 1440)
  | none => false

/-- src/app.py lines 179-181: the next-14-days listing. -/
def upcoming14 (t : List CaseRecord) (now : Nat) : List CaseRecord :=
  t.filter (inUpcoming14 now)

/-- src/app.py line 56: the Pending Cases KPI. -/
def pendingCases (t : List CaseRecord) : Nat :=
  (t.filter fun r => decide (r.case_status = strPending)).length

/-- src/app.py line 57: the Decided Cases KPI. -/
def decidedCases (t : List CaseRecord) : Nat :=
  (t.filter fun r => decide (r.case_status = strDecided)).length

theorem sum_map_add (f g : PyStr → Nat) :
    ∀ l : List PyStr,
      (l.map fun x => f x + g x).sum = (l.map f).sum + (l.map g).sum
  | [] => rfl
  | a :: l => by
    simp only [List.map_cons, List.sum_cons, sum_map_add f g l]
    omega

theorem sum_map_ite (a : PyStr) :
    ∀ l : List PyStr, (l.map fun k => if a = k then 1 else 0).sum = countLabel a l
  | [] => rfl
  | b :: l => by
    simp only [List.map_cons, List.sum_cons, countLabel, sum_map_ite a l]
    by_cases h : a = b
    · simp [h]
    · have h2 : ¬ b = a := fun e => h e.symm
      simp [h, h2]

theorem countLabel_eq_zero {a : PyStr} :
    ∀ {l : List PyStr}, a ∉ l → countLabel a l = 0
  | [], _ => rfl
  | b :: l, h => by
    have hb : ¬ b = a := fun e => h (e ▸ List.mem_cons_self b l)
    have hl : a ∉ l := fun e => h (List.mem_cons_of_mem b e)
    simp [countLabel, hb, countLabel_eq_zero hl]

theorem countLabel_dedup (a : PyStr) :
    ∀ l : List PyStr, countLabel a l.dedup = if a ∈ l then 1 else 0
  | [] => rfl
  | b :: l => by
    by_cases hb : b ∈ l
    · rw [List.dedup_cons_of_mem hb, countLabel_dedup a l]
      by_cases hab : a = b
      · simp [hab, hb]
      · simp [List.mem_cons, hab]
    · rw [List.dedup_cons_of_not_mem hb]
      simp only [countLabel]
      rw [countLabel_dedup a l]
      by_cases hab : a = b
      · simp [hab, hb, List.mem_cons]
      · have h2 : ¬ b = a := fun e => hab e.symm
        simp [List.mem_cons, hab, h2]

theorem sum_counts :
    ∀ l : List PyStr, (l.dedup.map fun k => countLabel k l).sum = l.length
  | [] => rfl
  | a :: l => by
    have hmap : (fun k : PyStr => countLabel k (a :: l)) =
        fun k => (if a = k then 1 else 0) + countLabel k l := by
      funext k
      simp [countLabel]
    by_cases h : a ∈ l
    · rw [List.dedup_cons_of_mem h, hmap, sum_map_add, sum_map_ite a l.dedup,
        countLabel_dedup, if_pos h, sum_counts l]
      simp only [List.length_cons]
      omega
    · have h1 : countLabel a (a :: l) = 1 := by
        simp [countLabel, countLabel_eq_zero h]
      rw [List.dedup_cons_of_not_mem h, List.map_cons, List.sum_cons, hmap,
        sum_map_add, sum_map_ite a l.dedup, countLabel_dedup, if_neg h,
        sum_counts l, h1]
      simp only [List.length_cons]
      omega

theorem valueCounts_sum (l : List PyStr) :
    ((valueCounts l).map fun p => p.2).sum = l.length := by
  unfold valueCounts
  rw [List.map_map]
  exact sum_counts l

theorem mem_valueCounts {l : List PyStr} {p : PyStr × Nat} :
    p ∈ valueCounts l ↔ p.1 ∈ l ∧ p.2 = countLabel p.1 l := by
  unfold valueCounts
  simp only [List.mem_map, List.mem_dedup]
  constructor
  · rintro ⟨k, hk, rfl⟩
    exact ⟨hk, rfl⟩
  · rintro ⟨h1, h2⟩
    refine ⟨p.1, h1, ?_⟩
    rw [← h2]

theorem valueCounts_keys (l : List PyStr) :
    (valueCounts l).map (fun p => p.1) = l.dedup := by
  unfold valueCounts
  rw [List.map_map]
  exact List.map_id l.dedup

theorem sortIndex_perm (l : List (PyStr × Nat)) : List.Perm (sortIndex l) l :=
  List.perm_insertionSort labelLe l

theorem sortIndex_sorted (l : List (PyStr × Nat)) :
    List.Sorted labelLe (sortIndex l) :=
  List.sorted_insertionSort labelLe l

/-- Claim C5: the level-1 per-court counts sum to the record count of the
table, and the level-2 per-month counts of a chosen court sum to the record
count of the slice at that court (the two breakdown levels the code has). -/
theorem breakdown_counts_sum (t : List CaseRecord) (c : PyStr) :
    ((casesByCourt t).map fun p => p.2).sum = t.length ∧
    ((monthlyCounts t c).map fun p => p.2).sum = (sliceAt t (some c)).length := by
  constructor
  · unfold casesByCourt
    rw [valueCounts_sum, List.length_map]
  · unfold monthlyCounts
    rw [List.Perm.sum_eq (List.Perm.map _ (sortIndex_perm _)), valueCounts_sum,
      List.length_map]
    rfl

/-- Claim C10: in the month drill-down no row of the court slice is dropped:
absent dates land under the literal label "NaT", the labels of the breakdown
are pairwise distinct (each row feeds exactly one pair), the counts sum to
the slice size, and the "NaT" label sorts weakly after every label of an
actual date and is distinct from all of them. -/
theorem month_breakdown_keeps_every_row (t : List CaseRecord) (c : PyStr) :
    ((monthlyCounts t c).map fun p => p.2).sum = (sliceCourt t c).length ∧
    ((monthlyCounts t c).map fun p => p.1).Nodup ∧
    monthLabel none = strNaT ∧
    (∀ ts : Nat, lexLe (monthLabel (some ts)) strNaT = true ∧
      monthLabel (some ts) ≠ strNaT) := by
  refine ⟨?_, ?_, rfl, ?_⟩
  · unfold monthlyCounts
    rw [List.Perm.sum_eq (List.Perm.map _ (sortIndex_perm _)), valueCounts_sum,
      List.length_map]
  · have hperm := List.Perm.map (fun p : PyStr × Nat => p.1) (sortIndex_perm
      (valueCounts ((sliceCourt t c).map fun r => monthLabel r.next_hearing_date)))
    refine List.Perm.nodup hperm.symm ?_
    rw [valueCounts_keys]
    exact List.nodup_dedup _
  · intro ts
    have hlt : 48 + tsYM ts / 16 / 1000 % 10 < 78 := by
      have := Nat.mod_lt (tsYM ts / 16 / 1000) (show 0 < 10 by omega)
      omega
    constructor
    · simp [monthLabel, lexLe, strNaT, hlt]
    · intro h
      have := congrArg List.length h
      simp [monthLabel, strNaT] at this

/-- A record of the High Court whose hearing date is absent. -/
def recAbsentDate : CaseRecord :=
  ⟨some [49], strNotAssigned, strPending, strHighCourt, none⟩

/-- Claim C4, counterexample: a court slice holding one record with an
absent hearing date yields the month breakdown [("NaT", 1)], not the empty
breakdown the excluded-by-policy reading demands. -/
theorem month_breakdown_not_excluding :
    monthlyCounts [recAbsentDate] strHighCourt = [(strNaT, 1)] ∧
    ¬ monthlyCounts [recAbsentDate] strHighCourt = [] := by
  constructor <;> decide

/-- Claim C4 as amended: the level-2 breakdown groups the court slice by the
month label string (absent dates under "NaT", not excluded), pairs each label
with its occurrence count, and is sorted ascending by label. -/
theorem month_breakdown_grouping (t : List CaseRecord) (c : PyStr) :
    List.Sorted labelLe (monthlyCounts t c) ∧
    (∀ p : PyStr × Nat, p ∈ monthlyCounts t c ↔
      p.1 ∈ ((sliceCourt t c).map fun r => monthLabel r.next_hearing_date) ∧
      p.2 = countLabel p.1 ((sliceCourt t c).map fun r => monthLabel r.next_hearing_date)) ∧
    (∀ d : Option Nat, monthLabel d = strNaT ↔ d = none) := by
  refine ⟨sortIndex_sorted _, ?_, ?_⟩
  · intro p
    exact (List.Perm.mem_iff (sortIndex_perm _)).trans mem_valueCounts
  · intro d
    cases d with
    | none => simp [monthLabel]
    | some ts =>
      simp only [iff_false, reduceCtorEq]
      intro h
      have := congrArg List.length h
      simp [monthLabel, strNaT] at this

/-- Claim C6: the drill-down slice at a selection holds exactly the rows of
the table whose fields equal every concrete value of the selection (the code
has one drill level, the court, compared by exact string equality after
canonicalization); the sidebar query is the conjunction of the three
membership filters it names. -/
theorem slice_exactness (t : List CaseRecord) (sel : Option PyStr)
    (r : CaseRecord) (offices statuses courts : List PyStr) :
    (r ∈ sliceAt t sel ↔ r ∈ t ∧ ∀ c, sel = some c → r.court_name = c) ∧
    (r ∈ dfFiltered t offices statuses courts ↔
      r ∈ t ∧ r.supervisor_office ∈ offices ∧ r.case_status ∈ statuses ∧
      r.court_name ∈ courts) := by
  constructor
  · cases sel with
    | none => simp [sliceAt]
    | some c => simp [sliceAt, sliceCourt, List.mem_filter]
  · simp [dfFiltered, List.mem_filter, and_assoc]

/-- Claim C7: any fetch or parse failure (including a sheet without the 24
columns the positional binding needs) makes load_data show the error notice
and return the empty table, and whenever the error notice was shown the table
is empty — an empty table is the signalled degradation, never an uncaught
propagation; the embedding of load_data is a total function, so no call
raises. -/
theorem load_failure_yields_empty_table (msg : PyStr) (ncols : Nat)
    (phys : List RawRow) :
    load_data_result (FetchResult.failure msg) = ([], true) ∧
    (ncols ≠ 24 → load_data_result (FetchResult.success ncols phys) = ([], true)) ∧
    ((load_data_result (FetchResult.success ncols phys)).2 = true →
      load_data (FetchResult.success ncols phys) = []) ∧
    load_data (FetchResult.failure msg) = [] := by
  refine ⟨rfl, fun h => ?_, fun h => ?_, rfl⟩
  · simp [load_data_result, h]
  · by_cases hn : ncols = 24
    · simp [load_data_result, hn] at h
    · simp [load_data, load_data_result, hn]

/-- A wholly blank physical row (title banner, filler). -/
def rawBlankRow : RawRow := ⟨none, none, none, none, none⟩

/-- A physical row carrying serial number "2". -/
def rawSerial2 : RawRow := ⟨some [50], none, none, none, none⟩

/-- A physical row carrying serial number "3". -/
def rawSerial3 : RawRow := ⟨some [51], none, none, none, none⟩

/-- Claim C3, counterexample: with four physical rows whose third and fourth
both carry a serial number, load keeps only the fourth.  The third physical
row is discarded unconditionally by iloc[1:], against the claim that only the
first two physical rows are discarded and everything else with a serial
number becomes a record. -/
theorem load_drops_third_physical_row :
    loadRows [rawBlankRow, rawBlankRow, rawSerial2, rawSerial3] =
      [normalizeRow rawSerial3] ∧
    rawSerial2.s_no.isSome = true ∧
    normalizeRow rawSerial2 ∉
      loadRows [rawBlankRow, rawBlankRow, rawSerial2, rawSerial3] := by
  decide

/-- Claim C3 as amended: load discards exactly the first three physical rows
(the title banner skipped by read_csv, the source header consumed in favor of
the 24-name canonical column list, and the row right after the header dropped
by iloc[1:]); of the remaining rows it keeps exactly those whose serial cell
is present, each becoming one normalized record. -/
theorem load_row_accounting (t h x : RawRow) (rest : List RawRow)
    (rec : CaseRecord) :
    loadRows (t :: h :: x :: rest) =
      (rest.filter fun r => r.s_no.isSome).map normalizeRow ∧
    (rec ∈ loadRows (t :: h :: x :: rest) ↔
      ∃ r, r ∈ rest ∧ r.s_no.isSome = true ∧ rec = normalizeRow r) ∧
    canonicalColumns.length = 24 := by
  refine ⟨rfl, ?_, rfl⟩
  have hl : loadRows (t :: h :: x :: rest) =
      (rest.filter fun r => r.s_no.isSome).map normalizeRow := rfl
  rw [hl]
  simp only [List.mem_map, List.mem_filter]
  constructor
  · rintro ⟨a, ⟨ha1, ha2⟩, ha3⟩
    exact ⟨a, ha1, ha2, ha3.symm⟩
  · rintro ⟨a, ha1, ha2, ha3⟩
    exact ⟨a, ⟨ha1, ha2⟩, ha3.symm⟩

/-- "running" -/
def strRunningLower : PyStr := [114, 117, 110, 110, 105, 110, 103]

/-- "Running" -/
def strRunningTitle : PyStr := [82, 117, 110, 110, 105, 110, 103]

/-- Claim C1, code-bug evidence: the source status "running" survives
canonicalization as "Running", a value outside the canonical set
{Pending, Decided, Not Specified}.  Series.replace leaves unmatched values
unchanged, so the identity entries of the mapping and the second fillna
(both meaningful only under Series.map semantics) never catch it. -/
theorem status_canonical_set_violated :
    canonStatus (some strRunningLower) = strRunningTitle ∧
    strRunningTitle ≠ strPending ∧ strRunningTitle ≠ strDecided ∧
    strRunningTitle ≠ strNotSpecified := by
  decide

/-- A record whose hearing is at midnight of 2025-03-15. -/
def recMidnightHearing : CaseRecord :=
  ⟨some [49], strNotAssigned, strPending, strHighCourt, some (mkTs 2025 3 15 0)⟩

/-- The moment of evaluation 2025-03-15 10:00. -/
def evalInstant : Nat := mkTs 2025 3 15 600

/-- Claim C2, counterexample: at 10:00 on 2025-03-15 a record whose hearing
was at midnight the same day is not strictly later than the moment of
evaluation, yet the complete upcoming listing (which compares against the
midnight of the evaluation day, next_hearing_date >= today.normalize())
includes it. -/
theorem listing_admits_non_strict :
    recMidnightHearing ∈ allUpcoming [recMidnightHearing] evalInstant ∧
    isUpcoming evalInstant recMidnightHearing = false ∧
    ¬ evalInstant < mkTs 2025 3 15 0 := by
  decide

/-- Claim C2 as amended: the KPI counts a record exactly when its hearing
date is present and strictly later than the moment of evaluation; the
upcoming listings admit a record exactly when its date is present and on or
after the midnight of the evaluation day (the 14-day listing also at most 14
days after it); a record with an absent date is never upcoming anywhere. -/
theorem upcoming_classification (t : List CaseRecord) (now : Nat)
    (r : CaseRecord) :
    (r ∈ t.filter (isUpcoming now) ↔
      r ∈ t ∧ ∃ ts, r.next_hearing_date = some ts ∧ now < ts) ∧
    (r ∈ allUpcoming t now ↔
      r ∈ t ∧ ∃ ts, r.next_hearing_date = some ts ∧ normalizeTs now ≤ ts) ∧
    (r ∈ upcoming14 t now ↔
      r ∈ t ∧ ∃ ts, r.next_hearing_date = some ts ∧ normalizeTs now ≤ ts ∧
        ts ≤ normalizeTs now + 14 * 1440) ∧
    (∀ ts, r.next_hearing_date = some ts → now < ts →
      upcomingHearingsTotal (r :: t) now = upcomingHearingsTotal t now + 1) ∧
    (∀ ts, r.next_hearing_date = some ts → ¬ now < ts →
      upcomingHearingsTotal (r :: t) now = upcomingHearingsTotal t now) ∧
    (r.next_hearing_date = none →
      upcomingHearingsTotal (r :: t) now = upcomingHearingsTotal t now ∧
      isUpcoming now r = false ∧ inAllUpcoming now r = false ∧
      inUpcoming14 now r = false) := by
  cases hd : r.next_hearing_date with
  | none =>
    refine ⟨?_, ?_, ?_, ?_, ?_, ?_⟩ <;>
      simp [List.mem_filter, isUpcoming, allUpcoming, inAllUpcoming,
        upcoming14, inUpcoming14, upcomingHearingsTotal, List.filter_cons, hd]
  | some ts =>
    refine ⟨?_, ?_, ?_, ?_, ?_, ?_⟩ <;>
      simp [List.mem_filter, isUpcoming, allUpcoming, inAllUpcoming,
        upcoming14, inUpcoming14, upcomingHearingsTotal, List.filter_cons, hd]
    · intro h1
      simp [h1]
    · intro h1
      simp [Nat.not_lt.2 h1]

/-- "not a date" -/
def strNotADate : PyStr := [110, 111, 116, 32, 97, 32, 100, 97, 116, 101]

/-- A padding physical row for claim C8's witness. -/
def rawPadRow : RawRow := ⟨none, none, none, none, none⟩

/-- A physical row with a serial number and the date cell "not a date". -/
def rawNotADate : RawRow := ⟨some [49], none, none, none, some strNotADate⟩

/-- Claim C8: a row whose date cell is the unparseable "not a date" is kept
by load (given its serial cell is present), its date comes out absent rather
than the raw string, and any record with an absent date is excluded from the
set the upcoming-hearings KPI counts; no error is raised (every function
involved is total). -/
theorem unparseable_date_coerces (t h x : RawRow) (rest1 rest2 : List RawRow)
    (rr : RawRow) (tbl : List CaseRecord) (now : Nat) (r : CaseRecord)
    (h1 : rr.s_no.isSome = true) (h2 : rr.next_hearing_date = some strNotADate)
    (h3 : r.next_hearing_date = none) :
    parseDate rr.next_hearing_date = none ∧
    normalizeRow rr ∈ loadRows (t :: h :: x :: (rest1 ++ rr :: rest2)) ∧
    (normalizeRow rr).next_hearing_date = none ∧
    r ∉ tbl.filter (isUpcoming now) := by
  have hp : parseDate rr.next_hearing_date = none := by
    rw [h2]
    decide
  refine ⟨hp, ?_, ?_, ?_⟩
  · have hl : loadRows (t :: h :: x :: (rest1 ++ rr :: rest2)) =
        ((rest1 ++ rr :: rest2).filter fun r => r.s_no.isSome).map
          normalizeRow := rfl
    rw [hl]
    refine List.mem_map_of_mem normalizeRow (List.mem_filter.2 ⟨?_, h1⟩)
    exact List.mem_append_right rest1 (List.mem_cons_self rr rest2)
  · simp [normalizeRow, hp]
  · simp [List.mem_filter, isUpcoming, h3]

/-- Claim C8 witness: the hypotheses of unparseable_date_coerces hold at a
concrete sheet of four physical rows whose last row carries serial "1" and
the date cell "not a date". -/
theorem unparseable_date_coerces_witness :
    parseDate rawNotADate.next_hearing_date = none ∧
    normalizeRow rawNotADate ∈
      loadRows (rawPadRow :: rawPadRow :: rawPadRow :: ([] ++ rawNotADate :: [])) ∧
    (normalizeRow rawNotADate).next_hearing_date = none ∧
    normalizeRow rawNotADate ∉
      [normalizeRow rawNotADate].filter (isUpcoming 0) :=
  unparseable_date_coerces rawPadRow rawPadRow rawPadRow [] [] rawNotADate
    [normalizeRow rawNotADate] 0 (normalizeRow rawNotADate)
    (by decide) (by decide) (by decide)

theorem isAlphaChar_titleChar (b : Bool) (c : Nat) :
    isAlphaChar (titleChar b c) = isAlphaChar c := by
  rw [Bool.eq_iff_iff]
  simp only [titleChar, toUpperChar, toLowerChar, isAlphaChar,
    Bool.or_eq_true, Bool.and_eq_true, decide_eq_true_eq]
  split_ifs <;> omega

theorem isSpaceChar_titleChar (b : Bool) (c : Nat) :
    isSpaceChar (titleChar b c) = isSpaceChar c := by
  rw [Bool.eq_iff_iff]
  simp only [titleChar, toUpperChar, toLowerChar, isAlphaChar, isSpaceChar,
    Bool.or_eq_true, Bool.and_eq_true, decide_eq_true_eq]
  split_ifs <;> simp_all <;> omega

theorem titleChar_titleChar (b : Bool) (c : Nat) :
    titleChar b (titleChar b c) = titleChar b c := by
  simp only [titleChar, toUpperChar, toLowerChar, isAlphaChar,
    Bool.or_eq_true, Bool.and_eq_true, decide_eq_true_eq]
  split_ifs <;> simp_all <;> omega

theorem titleAux_idem :
    ∀ (l : PyStr) (b : Bool), titleAux b (titleAux b l) = titleAux b l
  | [], _ => rfl
  | c :: cs, b => by
    simp only [titleAux, isAlphaChar_titleChar, titleChar_titleChar]
    rw [titleAux_idem cs (isAlphaChar c)]

theorem titleStr_idem (s : PyStr) : titleStr (titleStr s) = titleStr s :=
  titleAux_idem s false

theorem titleAux_space_map :
    ∀ (b : Bool) (l : PyStr),
      (titleAux b l).map isSpaceChar = l.map isSpaceChar
  | _, [] => rfl
  | b, c :: cs => by
    simp only [titleAux, List.map_cons, isSpaceChar_titleChar]
    rw [titleAux_space_map (isAlphaChar c) cs]

theorem dropWhile_self {p : Nat → Bool} :
    ∀ l : PyStr, (l.dropWhile p).dropWhile p = l.dropWhile p
  | [] => rfl
  | c :: cs => by
    by_cases h : p c = true
    · simp only [List.dropWhile_cons, if_pos h]
      exact dropWhile_self cs
    · simp only [List.dropWhile_cons, if_neg h]

theorem head_false_of_dropWhile_eq_self {p : Nat → Bool} {c : Nat}
    {rest : PyStr} (h : (c :: rest).dropWhile p = c :: rest) : p c = false := by
  by_cases hp : p c = true
  · rw [List.dropWhile_cons, if_pos hp] at h
    have hlen : (rest.dropWhile p).length ≤ rest.length :=
      (List.dropWhile_suffix p).length_le
    rw [h] at hlen
    simp at hlen
  · simpa using hp

theorem dropWhile_eq_self_of_map_eq {p : Nat → Bool} :
    ∀ {l1 l2 : PyStr}, l1.map p = l2.map p → l2.dropWhile p = l2 →
      l1.dropWhile p = l1
  | [], _, _, _ => rfl
  | a :: as, [], hm, _ => by simp at hm
  | a :: as, b :: bs, hm, h2 => by
    have hab : p a = p b := by
      simp only [List.map_cons, List.cons.injEq] at hm
      exact hm.1
    have hb := head_false_of_dropWhile_eq_self h2
    rw [List.dropWhile_cons, if_neg (by rw [hab, hb]; simp)]

theorem stripStr_drop_trailing (s : PyStr) :
    (stripStr s).reverse.dropWhile isSpaceChar = (stripStr s).reverse := by
  unfold stripStr
  rw [List.reverse_reverse]
  exact dropWhile_self _

theorem reverse_isPrefix_of_dropWhile {p : Nat → Bool} (l : PyStr) :
    (l.dropWhile p).reverse <+: l.reverse := by
  obtain ⟨w, hw⟩ := List.dropWhile_suffix p (l := l)
  exact ⟨w.reverse, by rw [← List.reverse_append, hw]⟩

theorem stripStr_drop_leading (s : PyStr) :
    (stripStr s).dropWhile isSpaceChar = stripStr s := by
  have ha : (s.dropWhile isSpaceChar).dropWhile isSpaceChar =
      s.dropWhile isSpaceChar := dropWhile_self s
  have hpre : stripStr s <+: s.dropWhile isSpaceChar := by
    have h1 := reverse_isPrefix_of_dropWhile (p := isSpaceChar)
      (s.dropWhile isSpaceChar).reverse
    rw [List.reverse_reverse] at h1
    exact h1
  cases hx : stripStr s with
  | nil => rfl
  | cons c t =>
    obtain ⟨u, hu⟩ := hpre
    rw [hx] at hu
    have hhead : s.dropWhile isSpaceChar = c :: (t ++ u) := by
      rw [← hu]
      rfl
    rw [hhead] at ha
    have hc := head_false_of_dropWhile_eq_self ha
    rw [List.dropWhile_cons, if_neg (by rw [hc]; simp)]

theorem strip_of_edge_fixed {y : PyStr} (h1 : y.dropWhile isSpaceChar = y)
    (h2 : y.reverse.dropWhile isSpaceChar = y.reverse) : stripStr y = y := by
  unfold stripStr
  rw [h1, h2, List.reverse_reverse]

theorem strip_title_strip (s : PyStr) :
    stripStr (titleStr (stripStr s)) = titleStr (stripStr s) := by
  have hmap : (titleStr (stripStr s)).map isSpaceChar =
      (stripStr s).map isSpaceChar := titleAux_space_map false (stripStr s)
  have h1 : (titleStr (stripStr s)).dropWhile isSpaceChar =
      titleStr (stripStr s) :=
    dropWhile_eq_self_of_map_eq hmap (stripStr_drop_leading s)
  have hmapr : (titleStr (stripStr s)).reverse.map isSpaceChar =
      (stripStr s).reverse.map isSpaceChar := by
    rw [List.map_reverse, List.map_reverse, hmap]
  have h2 : (titleStr (stripStr s)).reverse.dropWhile isSpaceChar =
      (titleStr (stripStr s)).reverse :=
    dropWhile_eq_self_of_map_eq hmapr (stripStr_drop_trailing s)
  exact strip_of_edge_fixed h1 h2

theorem canonCourtStr_idem (s : PyStr) :
    canonCourtStr (canonCourtStr s) = canonCourtStr s := by
  by_cases h1 : titleStr (stripStr s) = strPunjabHC
  · have hv : canonCourtStr s = strHighCourt := by
      unfold canonCourtStr
      rw [if_pos h1]
    rw [hv]
    decide
  · by_cases h2 : titleStr (stripStr s) = strDistrictLudhiana
    · have hv : canonCourtStr s = strDistrictCourt := by
        unfold canonCourtStr
        rw [if_neg h1, if_pos h2]
      rw [hv]
      decide
    · by_cases h3 : titleStr (stripStr s) = strSupremeIndia
      · have hv : canonCourtStr s = strSupremeCourt := by
          unfold canonCourtStr
          rw [if_neg h1, if_neg h2, if_pos h3]
        rw [hv]
        decide
      · have hv : canonCourtStr s = titleStr (stripStr s) := by
          unfold canonCourtStr
          rw [if_neg h1, if_neg h2, if_neg h3]
        rw [hv]
        unfold canonCourtStr
        rw [strip_title_strip s, titleStr_idem (stripStr s),
          if_neg h1, if_neg h2, if_neg h3]

/-- Claim C9: court-name canonicalization is a round trip on canonical
values: it is idempotent on every string, and each of the canonical names
High Court, District Court, Supreme Court (and the fillna value
Not Specified) passes through unchanged. -/
theorem court_canonicalization_round_trip :
    (∀ s : PyStr, canonCourtStr (canonCourtStr s) = canonCourtStr s) ∧
    canonCourtStr strHighCourt = strHighCourt ∧
    canonCourtStr strDistrictCourt = strDistrictCourt ∧
    canonCourtStr strSupremeCourt = strSupremeCourt ∧
    canonCourt (some strNotSpecified) = strNotSpecified :=
  ⟨canonCourtStr_idem, by decide, by decide, by decide, by decide⟩

end CourtDashboard
